import Mathlib

/-!
Verification of the validated-retry oracle caller and the deterministic
tree renderer of the opencode speech-act-theory plugin.

The TypeScript sources are embedded shallowly:
* `stripCodeFences` models `utils/stripCodeFences.ts` (two `String.replace`
  calls with the regexes `^(three backticks)(json)?\s*\n?` (multiline) and
  `\n?(three backticks)\s*$` (multiline), followed by `trim()`), working on
  `List Char`; JavaScript `\s` and the multiline `^`/`$` line-terminator
  sets are modelled exactly.
* `buildNode`/`flatten`/`renderNode`/`formatPrompt` model
  `src/format-prompt.ts`; the shared mutable counter is threaded explicitly.
* `extractLlmError`, `extractText`, `validateJson`, `formatValidationError`,
  `buildRetryPrompt` and `promptWithRetry` model `session.ts` /
  `utils/validate.ts` / `utils/extractLlmError.ts`; the external oracle is a
  function from the attempt index to the transport response, `JSON.parse`
  and the zod schema are abstract parameters, and `promptWithRetry` returns
  the result together with the number of oracle calls issued.
-/

/-! ## JavaScript character classes -/

/-- The JavaScript regex `\s` class (also the set trimmed by `trim()`). -/
def jsWhitespace (c : Char) : Bool :=
  c = ' ' || c = '\t' || c = '\n' || c = '\r' || c.val = 0x0B || c.val = 0x0C ||
  c.val = 0xA0 || c.val = 0x1680 || (0x2000 <= c.val && c.val <= 0x200A) ||
  c.val = 0x2028 || c.val = 0x2029 || c.val = 0x202F || c.val = 0x205F ||
  c.val = 0x3000 || c.val = 0xFEFF

/-- JavaScript LineTerminator set, used by the multiline anchors. -/
def isLineTerm (c : Char) : Bool :=
  c = '\n' || c = '\r' || c.val = 0x2028 || c.val = 0x2029

/-! ## stripCodeFences (utils/stripCodeFences.ts) -/

/-- The three-backtick fence marker. -/
def fenceMarker : List Char := "```".toList

/-- The optional `(json)?` language tag after the opening fence. -/
def dropJsonTag (s : List Char) : List Char :=
  if "json".toList.isPrefixOf s then s.drop 4 else s

/-- First replace: delete the first (leftmost, multiline) match of
`^(fence)(json)?\s*\n?`. The flag tracks whether the scan position is at a
line start. Greedy `\s*` swallows the whole whitespace run, after which
`\n?` can only match the empty string. -/
def replaceOpen : Bool → List Char → List Char
  | _, [] => []
  | atStart, c :: rest =>
    if atStart && fenceMarker.isPrefixOf (c :: rest) then
      List.dropWhile jsWhitespace (dropJsonTag (rest.drop 2))
    else
      c :: replaceOpen (isLineTerm c) rest

/-- Index of the last line terminator in a character run, if any. -/
def lastLineTermIdx : List Char → Option Nat
  | [] => none
  | c :: rest =>
    match lastLineTermIdx rest with
    | some i => some (i + 1)
    | none => if isLineTerm c then some 0 else none

/-- After the closing fence, greedy `\s*` backtracks until `$` (end of input
or just before a line terminator) holds; returns how many whitespace
characters the match still consumes. -/
def closeTail (u : List Char) : Option Nat :=
  let run := u.takeWhile jsWhitespace
  if u.drop run.length = [] then some run.length
  else lastLineTermIdx run

/-- Length of a match of `\n?(fence)\s*$` starting exactly here, if any. -/
def closeLenAt : List Char → Option Nat
  | [] => none
  | c :: rest =>
    if c = '\n' && fenceMarker.isPrefixOf rest then
      (closeTail (rest.drop 3)).map (fun p => p + 4)
    else if fenceMarker.isPrefixOf (c :: rest) then
      (closeTail (rest.drop 2)).map (fun p => p + 3)
    else none

/-- Second replace: delete the first (leftmost) match of `\n?(fence)\s*$`. -/
def replaceClose : List Char → List Char
  | [] => []
  | c :: rest =>
    match closeLenAt (c :: rest) with
    | some n => (c :: rest).drop n
    | none => c :: replaceClose rest

/-- JavaScript `String.prototype.trim`. -/
def trimChars (s : List Char) : List Char :=
  ((s.dropWhile jsWhitespace).reverse.dropWhile jsWhitespace).reverse

/-- `stripCodeFences` from utils/stripCodeFences.ts. -/
def stripCodeFences (s : List Char) : List Char :=
  trimChars (replaceClose (replaceOpen true s))

/-- `stripCodeFences` lifted to `String` (as used by `promptWithRetry`). -/
def stripCodeFencesS (s : String) : String :=
  String.mk (stripCodeFences s.toList)

/-- Does the text contain a three-backtick fence marker anywhere? -/
def hasFence : List Char → Bool
  | [] => false
  | c :: rest => fenceMarker.isPrefixOf (c :: rest) || hasFence rest

/-! ## Data model of src/format-prompt.ts and prompt-schema.ts -/

/-- `ParsedTask` from prompt-schema.ts: recursive task records. -/
structure ParsedTask where
  intent : String
  targets : List String
  constraints : List String
  context : Option String
  subtasks : List ParsedTask

/-- `ParsedPrompt` from prompt-schema.ts: an ordered list of tasks. -/
structure ParsedPrompt where
  tasks : List ParsedTask

/-- `TreeNode` from format-prompt.ts. -/
structure TreeNode where
  label : String
  metaLines : List String
  children : List TreeNode

/-- The metadata lines pushed by `buildNode` (Targets, Constraints, Context,
in that order, each only when non-empty; `task.context` is subject to
JavaScript truthiness, so an empty string produces no line). -/
def taskMetaLines (task : ParsedTask) : List String :=
  (if task.targets.length > 0 then
    ["> Targets: " ++ String.intercalate ", " task.targets] else []) ++
  (if task.constraints.length > 0 then
    ["> Constraints: " ++ String.intercalate ", " task.constraints] else []) ++
  (match task.context with
   | some ctx => if ctx ≠ "" then ["> Context: " ++ ctx] else []
   | none => [])

mutual

/-- `buildNode` from format-prompt.ts; the mutable counter is threaded as an
explicit argument and returned alongside the node. -/
def buildNode (task : ParsedTask) (counter : Nat) : TreeNode × Nat :=
  let label := toString counter ++ ". " ++ task.intent
  let p := buildNodes task.subtasks (counter + 1)
  ({ label := label, metaLines := taskMetaLines task, children := p.1 }, p.2)
termination_by sizeOf task
decreasing_by cases task; simp; try omega

/-- `tasks.map((task) => buildNode({task, counter}))` with the threaded
counter. -/
def buildNodes : List ParsedTask → Nat → List TreeNode × Nat
  | [], c => ([], c)
  | t :: ts, c =>
    let p := buildNode t c
    let q := buildNodes ts p.2
    (p.1 :: q.1, q.2)
termination_by ts _ => sizeOf ts
decreasing_by all_goals (simp; try omega)

end

/-- The child-free copy `flatten` pushes for each top-level node. -/
def stripChildren (n : TreeNode) : TreeNode :=
  { label := n.label, metaLines := n.metaLines, children := [] }

/-- `flatten` from format-prompt.ts: for each node, a child-free copy of the
node followed by its immediate children (which keep their own subtrees). -/
def flatten : List TreeNode → List TreeNode
  | [] => []
  | n :: rest => stripChildren n :: (n.children ++ flatten rest)

/-- `label.indexOf('. ')` (first occurrence). -/
def dotSpaceIdx : List Char → Option Nat
  | '.' :: ' ' :: _ => some 0
  | _ :: rest => (dotSpaceIdx rest).map (· + 1)
  | [] => none

/-- `node.label.indexOf('. ') + 2` (with JavaScript's `-1` on no match). -/
def numEndOf (label : String) : Nat :=
  match dotSpaceIdx label.toList with
  | some i => i + 2
  | none => 1

/-- `' '.repeat(n)`. -/
def spacesOf (n : Nat) : String := String.mk (List.replicate n ' ')

mutual

/-- `renderNode` from format-prompt.ts, producing the list of lines.
`padLen` is computed with truncated subtraction, matching
`' '.repeat(padLen > 0 ? padLen : 0)`. -/
def renderNode (node : TreeNode) (pfx : String) (childPfx : String) :
    List String :=
  let firstLine := pfx ++ node.label
  let textStart := pfx.length + numEndOf node.label
  let metaPad := childPfx ++ (if node.children.length > 0 then "│" else " ") ++
    spacesOf (textStart - childPfx.length - 1)
  let metas := node.metaLines.map (fun m => metaPad ++ m)
  if node.children.length > 0 then
    firstLine :: metas ++ ((childPfx ++ "│") :: renderKids node.children childPfx true)
  else
    firstLine :: metas
termination_by sizeOf node
decreasing_by cases node; simp; try omega

/-- The child loop of `renderNode`: a gap line before every child after the
first, `├──`/`└──` connectors with a `┬` branch glyph when the child itself
has children, and continuation padding for the child's descendants. -/
def renderKids : List TreeNode → String → Bool → List String
  | [], _, _ => []
  | child :: rest, childPfx, isFirst =>
    let gap := if isFirst then [] else [childPfx ++ "│"]
    let isLast := rest.length = 0
    let connector := (if isLast then "└──" else "├──") ++
      (if child.children.length > 0 then "┬ " else " ")
    let continuation := if isLast then "   " else "│  "
    gap ++ (renderNode child (childPfx ++ connector) (childPfx ++ continuation) ++
      renderKids rest childPfx false)
termination_by ts _ _ => sizeOf ts
decreasing_by all_goals (simp; try omega)

end

/-- The single-node fast path of `formatPrompt`: the label line, then each
metadata line prefixed with two spaces. -/
def singleBlock (node : TreeNode) : String :=
  String.intercalate "\n" (node.label :: node.metaLines.map (fun m => "  " ++ m))

/-- The multi-node path of `formatPrompt`: flatten, take the first flat node
as the implicit root carrying all remaining flat nodes as its children, and
render with a `┬ ` root marker when children exist. -/
def multiBlock (nodes : List TreeNode) : String :=
  let flat := flatten nodes
  let root : TreeNode :=
    { label := match flat.head? with | some n => n.label | none => ""
      metaLines := match flat.head? with | some n => n.metaLines | none => []
      children := flat.drop 1 }
  let rootPfx := if root.children.length > 0 then "┬ " else ""
  String.intercalate "\n" (renderNode root rootPfx "")

/-- `formatPrompt` from format-prompt.ts. -/
def formatPrompt (parsed : ParsedPrompt) : String :=
  match parsed.tasks with
  | [] => ""
  | _ =>
    let p := buildNodes parsed.tasks 1
    let totalNodes := p.2 - 1
    if totalNodes = 1 then
      match p.1 with
      | n :: _ => singleBlock n
      | [] => multiBlock p.1
    else
      multiBlock p.1

/-- A task with empty defaults, as the zod schema defaults produce. -/
def leafTask (intent : String) : ParsedTask :=
  { intent := intent, targets := [], constraints := [], context := none,
    subtasks := [] }

/-! ## Validated oracle caller (session.ts, utils/validate.ts,
utils/extractLlmError.ts) -/

/-- A response fragment (`Part`): `{ type: string, text?: string }`. -/
structure RespPart where
  type : String
  text : Option String

/-- `error.data` of a `MessageInfo`: `{ message?: string }`. -/
structure LlmErrData where
  message : Option String

/-- `error` of a `MessageInfo`: `{ name?, data? }`. -/
structure LlmErr where
  name : Option String
  data : Option LlmErrData

/-- `MessageInfo` from utils/extractLlmError.ts. -/
structure MessageInfo where
  role : String
  providerID : Option String
  modelID : Option String
  error : Option LlmErr

/-- `err.name || 'Unknown LLM error'` (JavaScript truthiness: an absent or
empty name falls through). -/
def llmErrName (err : LlmErr) : String :=
  match err.name with
  | some n => if n ≠ "" then n else "Unknown LLM error"
  | none => "Unknown LLM error"

/-- `extractLlmError` from utils/extractLlmError.ts. -/
def extractLlmError (info : MessageInfo) : Option String :=
  match info.error with
  | none => none
  | some err =>
    match err.data with
    | some d =>
      match d.message with
      | some m => if m ≠ "" then some m else some (llmErrName err)
      | none => some (llmErrName err)
    | none => some (llmErrName err)

/-- The fragment filter of `extractText`: `p.type === 'text' && p.text`
(truthiness: an absent or empty text fragment is dropped). -/
def partSelected (p : RespPart) : Bool :=
  if p.type = "text" then
    match p.text with
    | some t => if t = "" then false else true
    | none => false
  else false

/-- `extractText` from session.ts: concatenate the text of the text-typed
fragments, in order. -/
def extractText (parts : List RespPart) : String :=
  String.join ((parts.filter partSelected).map (fun p => p.text.getD ""))

/-- `response.data` when present: `{ info, parts }`. -/
structure ResponseData where
  info : MessageInfo
  parts : List RespPart

/-- A `(path, message)` validation issue. -/
structure Issue where
  path : List String
  message : String

/-- The two failure variants of `validateJson` ('parse' / 'schema'). -/
inductive VFail where
  | parse
  | schema (issues : List Issue)

/-- The tagged result union of `validateJson`. -/
inductive VResult (T : Type) where
  | ok (data : T)
  | fail (f : VFail)

/-- `data` field of a `validateJson` result (`null` on failures). -/
def vData {T : Type} : VResult T → Option T
  | .ok d => some d
  | .fail _ => none

/-- `error` field of a `validateJson` result (`null` on success, the tag
string otherwise). -/
def vError {T : Type} : VResult T → Option String
  | .ok _ => none
  | .fail .parse => some "parse"
  | .fail (.schema _) => some "schema"

/-- `issues` field of a `validateJson` result (present only on the schema
variant). -/
def vIssues {T : Type} : VResult T → Option (List Issue)
  | .fail (.schema issues) => some issues
  | _ => none

/-- `validateJson` from utils/validate.ts. `JSON.parse` (wrapped in `safe`,
so a throw becomes an error value) and `schema.safeParse` are abstract
parameters: `parseJson` returns the thrown error's message or the parsed
value, `schemaParse` returns the issue list or the validated value. -/
def validateJson {J T : Type} (parseJson : String → Except String J)
    (schemaParse : J → Except (List Issue) T) (json : String) : VResult T :=
  match parseJson json with
  | .error _ => .fail .parse
  | .ok v =>
    match schemaParse v with
    | .error issues => .fail (.schema issues)
    | .ok d => .ok d

/-- `formatValidationError` from utils/validate.ts. -/
def formatValidationError : VFail → String
  | .parse => "Invalid JSON. Return valid JSON."
  | .schema issues =>
    "Schema validation failed:\n" ++
      String.intercalate "\n"
        (issues.map (fun i =>
          "  - " ++ String.intercalate "." i.path ++ ": " ++ i.message)) ++
      "\n\nFix the issues and try again."

/-- `buildRetryPrompt` from prompt.ts. -/
def buildRetryPrompt (errorMessage : String) : String :=
  "Your previous response was invalid. " ++ errorMessage ++
    "\n\nReturn ONLY valid JSON. Do not include any text outside the JSON object."

/-- `MAX_RETRIES` from session.ts. -/
def MAX_RETRIES : Nat := 3

/-- `cleaned.slice(0, 200)`. -/
def strTake (n : Nat) (s : String) : String := String.mk (s.toList.take n)

/-- The result union `Result<T>` of `promptWithRetry`:
`{data: T, error: null} | {data: null, error: string}`. -/
inductive PResult (T : Type) where
  | ok (data : T)
  | err (msg : String)

/-- The retry loop of `promptWithRetry`, one iteration per constructor step:
`remaining` counts the loop iterations still allowed (starting at
`MAX_RETRIES`), `attempt` the iterations already taken, so the source's
`for (attempt = 0; attempt < MAX_RETRIES; attempt++)` is mirrored exactly.
The oracle is the transport: attempt `k` receives `oracle k` (`none` models
a missing `response.data`). Returns the result together with the total
number of oracle calls issued. -/
def promptLoop {J T : Type} (parseJson : String → Except String J)
    (schemaParse : J → Except (List Issue) T)
    (oracle : Nat → Option ResponseData) :
    Nat → Nat → String → String → PResult T × Nat
  | 0, attempt, _, lastError =>
    (.err ("Failed after " ++ toString MAX_RETRIES ++ " attempts. Last error: " ++
      lastError), attempt)
  | r + 1, attempt, _, _ =>
    match oracle attempt with
    | none =>
      (.err ("No response from LLM (attempt " ++ toString (attempt + 1) ++ ")"),
        attempt + 1)
    | some rd =>
      match extractLlmError rd.info with
      | some e => (.err e, attempt + 1)
      | none =>
        let text := extractText rd.parts
        if text = "" then
          promptLoop parseJson schemaParse oracle r (attempt + 1)
            (buildRetryPrompt "Empty response. Return valid JSON.")
            "Empty response"
        else
          let cleaned := stripCodeFencesS text
          match validateJson parseJson schemaParse cleaned with
          | .ok d => (.ok d, attempt + 1)
          | .fail f =>
            let errorMsg := formatValidationError f
            promptLoop parseJson schemaParse oracle r (attempt + 1)
              (buildRetryPrompt errorMsg)
              (errorMsg ++ " | raw: " ++ strTake 200 cleaned)

/-- `promptWithRetry` from session.ts, instrumented with the count of oracle
calls. -/
def promptWithRetry {J T : Type} (parseJson : String → Except String J)
    (schemaParse : J → Except (List Issue) T)
    (oracle : Nat → Option ResponseData) (initialPrompt : String) :
    PResult T × Nat :=
  promptLoop parseJson schemaParse oracle MAX_RETRIES 0 initialPrompt ""

/-- The corrective detail recorded in `lastError` when attempt content is
retryable: `Empty response` for empty text, otherwise the formatted
validation error with the raw excerpt; `none` when the attempt is not a
retryable content failure. -/
def retryDetail {J T : Type} (parseJson : String → Except String J)
    (schemaParse : J → Except (List Issue) T) (rd : ResponseData) :
    Option String :=
  match extractLlmError rd.info with
  | some _ => none
  | none =>
    let text := extractText rd.parts
    if text = "" then some "Empty response"
    else
      let cleaned := stripCodeFencesS text
      match validateJson parseJson schemaParse cleaned with
      | .ok _ => none
      | .fail f =>
        some (formatValidationError f ++ " | raw: " ++ strTake 200 cleaned)

/-- An attempt response is a retryable content failure (empty text, invalid
JSON, or schema-nonconformant JSON). -/
def isRetryableContent {J T : Type} (parseJson : String → Except String J)
    (schemaParse : J → Except (List Issue) T) (r : Option ResponseData) :
    Bool :=
  match r with
  | none => false
  | some rd => (retryDetail parseJson schemaParse rd).isSome

/-- An attempt response is valid and validates to `v`. -/
def succeedsWith {J T : Type} (parseJson : String → Except String J)
    (schemaParse : J → Except (List Issue) T) (r : Option ResponseData)
    (v : T) : Prop :=
  ∃ rd, r = some rd ∧ extractLlmError rd.info = none ∧
    extractText rd.parts ≠ "" ∧
    validateJson parseJson schemaParse (stripCodeFencesS (extractText rd.parts)) =
      .ok v

/-- Substring test on character lists (`String.includes`). -/
def containsSub (hay sub : List Char) : Bool :=
  match hay with
  | [] => sub.isPrefixOf []
  | _ :: rest => sub.isPrefixOf hay || containsSub rest sub

/-! ## Pre-order numbering vocabulary (for the tree renderer properties) -/

mutual

/-- The intents of a task and all its descendants in depth-first pre-order
(a node before its own subtasks, subtasks before the next sibling). -/
def preIntentsTask (t : ParsedTask) : List String :=
  t.intent :: preIntentsList t.subtasks
termination_by sizeOf t
decreasing_by cases t; simp; try omega

/-- Pre-order intents of a forest. -/
def preIntentsList : List ParsedTask → List String
  | [] => []
  | t :: ts => preIntentsTask t ++ preIntentsList ts
termination_by ts => sizeOf ts
decreasing_by all_goals (simp; try omega)

end

mutual

/-- Labels of a built node and its descendants in pre-order. -/
def collectNode (n : TreeNode) : List String :=
  n.label :: collectNodes n.children
termination_by sizeOf n
decreasing_by cases n; simp; try omega

/-- Pre-order labels of a built forest. -/
def collectNodes : List TreeNode → List String
  | [] => []
  | n :: rest => collectNode n ++ collectNodes rest
termination_by ns => sizeOf ns
decreasing_by all_goals (simp; try omega)

end

/-- Sequential labelling of a list of intents starting at `c`. -/
def numberFrom (c : Nat) : List String → List String
  | [] => []
  | s :: rest => (toString c ++ ". " ++ s) :: numberFrom (c + 1) rest

/-- Written from the spec sentence for the multi-node flattening: each
top-level node is emitted with its own subtask list emptied, immediately
followed by its hoisted immediate children (which keep their true subtask
children recursively). -/
def flattenSpec (nodes : List TreeNode) : List TreeNode :=
  (nodes.map (fun n => stripChildren n :: n.children)).flatten

/-! ## Deontic rule model (rule-schema.ts, tools/descriptions.ts) -/

/-- The 7 deontic strengths of `StrengthSchema`. -/
inductive Strength where
  | obligatory
  | permissible
  | forbidden
  | optional
  | supererogatory
  | indifferent
  | omissible
deriving DecidableEq

/-- `ParsedRule` from rule-schema.ts. -/
structure ParsedRule where
  strength : Strength
  action : String
  target : String
  context : Option String
  reason : String

/-- Modelled from the spec: the repository contains no programmatic rule
renderer — rendering is delegated to the oracle, instructed by the
`DEONTIC_STRENGTHS` mapping of tools/descriptions.ts (`obligatory ->
positive imperative`, `forbidden -> negate with "do not"`, `permissible ->
prefix with "may"`, `optional -> "may choose to"`, `supererogatory ->
"ideally"`, `indifferent -> "either way is fine"`, `omissible -> "may
omit"`). This definition renders a parsed rule's directive following that
mapping. -/
def renderRule (r : ParsedRule) : String :=
  match r.strength with
  | .obligatory => r.action ++ " " ++ r.target
  | .forbidden => "do not " ++ r.action ++ " " ++ r.target
  | .permissible => "may " ++ r.action ++ " " ++ r.target
  | .optional => "may choose to " ++ r.action ++ " " ++ r.target
  | .supererogatory => "ideally " ++ r.action ++ " " ++ r.target
  | .indifferent => "either way is fine: " ++ r.action ++ " " ++ r.target
  | .omissible => "may omit " ++ r.action ++ " " ++ r.target

/-! ## Concrete instances used by witnesses -/

/-- A toy parser accepting exactly the text `ok`. -/
def wParse : String → Except String Unit :=
  fun s => if s = "ok" then .ok () else .error "not json"

/-- A toy schema validator mapping the parsed value to `42`. -/
def wSchema : Unit → Except (List Issue) Nat := fun _ => .ok 42

/-- A plain assistant message info with no error. -/
def wInfo : MessageInfo := ⟨"assistant", none, none, none⟩

/-- A response whose text does not parse (retryable content failure). -/
def wRespBad : ResponseData := ⟨wInfo, [⟨"text", some "nope"⟩]⟩

/-- A response whose text validates. -/
def wRespOk : ResponseData := ⟨wInfo, [⟨"text", some "ok"⟩]⟩

/-- A response carrying an oracle-side error in its metadata. -/
def wRespErr : ResponseData :=
  ⟨⟨"assistant", none, none, some ⟨some "RateLimit", none⟩⟩, []⟩

/-- Oracle: one retryable failure, then a valid response. -/
def wOracleC1 : Nat → Option ResponseData :=
  fun k => if k = 0 then some wRespBad else if k = 1 then some wRespOk else none

/-- Oracle: one retryable failure, then an oracle-side error. -/
def wOracleC2 : Nat → Option ResponseData :=
  fun k => if k = 0 then some wRespBad else if k = 1 then some wRespErr else none

/-- Oracle: every attempt is a retryable failure. -/
def wOracleC3 : Nat → Option ResponseData := fun _ => some wRespBad

/-! ## Theorems: stripCodeFences -/

theorem no_fence_head {c : Char} {rest : List Char}
    (h : hasFence (c :: rest) = false) :
    fenceMarker.isPrefixOf (c :: rest) = false ∧ hasFence rest = false := by
  rw [hasFence] at h
  exact Bool.or_eq_false_iff.mp h

theorem no_fence_not_prefix :
    ∀ s : List Char, hasFence s = false → fenceMarker.isPrefixOf s = false := by
  intro s h
  match s with
  | [] => decide
  | c :: rest => exact (no_fence_head h).1

theorem replaceOpen_of_no_fence :
    ∀ s : List Char, hasFence s = false → ∀ b, replaceOpen b s = s := by
  intro s
  induction s with
  | nil => intro _ b; rfl
  | cons c rest ih =>
    intro h b
    obtain ⟨h1, h2⟩ := no_fence_head h
    rw [replaceOpen, h1]
    simp [ih h2]

theorem closeLenAt_of_no_fence :
    ∀ s : List Char, hasFence s = false → closeLenAt s = none := by
  intro s h
  match s with
  | [] => rfl
  | c :: rest =>
    obtain ⟨h1, h2⟩ := no_fence_head h
    rw [closeLenAt, h1, no_fence_not_prefix rest h2]
    simp

theorem replaceClose_of_no_fence :
    ∀ s : List Char, hasFence s = false → replaceClose s = s := by
  intro s
  induction s with
  | nil => intro _; rfl
  | cons c rest ih =>
    intro h
    rw [replaceClose, closeLenAt_of_no_fence (c :: rest) h]
    simp [ih (no_fence_head h).2]

/-- C4: stripping the fence from `(three backticks)json\n{"a":1}\n(three
backticks)` yields exactly `{"a":1}`, and every input containing no
three-backtick fence is returned unchanged apart from trimming its leading
and trailing whitespace (inner content and internal newlines preserved). -/
theorem stripCodeFences_correct :
    stripCodeFences "```json\n\x7b\"a\":1\x7d\n```".toList = "\x7b\"a\":1\x7d".toList ∧
    ∀ s : List Char, hasFence s = false → stripCodeFences s = trimChars s := by
  constructor
  · decide
  · intro s h
    unfold stripCodeFences
    rw [replaceOpen_of_no_fence s h true, replaceClose_of_no_fence s h]

/-- Witness for C4: the fence-free branch applied at `hello\nworld `. -/
theorem stripCodeFences_correct_witness :
    hasFence "hello\nworld ".toList = false ∧
    stripCodeFences "hello\nworld ".toList = trimChars "hello\nworld ".toList :=
  ⟨by decide, stripCodeFences_correct.2 "hello\nworld ".toList (by decide)⟩

/-! ## Theorems: tree renderer -/

theorem numberFrom_append (xs ys : List String) :
    ∀ c, numberFrom c (xs ++ ys) = numberFrom c xs ++ numberFrom (c + xs.length) ys := by
  induction xs with
  | nil => intro c; simp [numberFrom]
  | cons s rest ih =>
    intro c
    simp [numberFrom, ih (c + 1), Nat.add_comm, Nat.add_assoc, Nat.add_left_comm]

theorem collectNodes_cons_raw (n : TreeNode) (rest : List TreeNode) :
    collectNodes (n :: rest) = collectNode n ++ collectNodes rest := by
  rw [collectNodes.eq_def]

theorem collectNodes_cons (n : TreeNode) (rest : List TreeNode) :
    collectNodes (n :: rest) =
      (n.label :: collectNodes n.children) ++ collectNodes rest := by
  rw [collectNodes_cons_raw, collectNode.eq_def]

theorem preIntentsList_cons_raw (t : ParsedTask) (rest : List ParsedTask) :
    preIntentsList (t :: rest) = preIntentsTask t ++ preIntentsList rest := by
  rw [preIntentsList.eq_def]

theorem preIntentsList_cons (t : ParsedTask) (rest : List ParsedTask) :
    preIntentsList (t :: rest) =
      (t.intent :: preIntentsList t.subtasks) ++ preIntentsList rest := by
  rw [preIntentsList_cons_raw, preIntentsTask.eq_def]

theorem buildNodes_cons (t : ParsedTask) (ts : List ParsedTask) (c : Nat) :
    buildNodes (t :: ts) c =
      ((buildNode t c).1 :: (buildNodes ts (buildNode t c).2).1,
        (buildNodes ts (buildNode t c).2).2) := by
  rw [buildNodes.eq_def]

theorem buildNode_parts (t : ParsedTask) (c : Nat) :
    buildNode t c =
      ({ label := toString c ++ ". " ++ t.intent, metaLines := taskMetaLines t,
         children := (buildNodes t.subtasks (c + 1)).1 },
        (buildNodes t.subtasks (c + 1)).2) := by
  rw [buildNode.eq_def]

theorem buildNodes_nil (c : Nat) : buildNodes [] c = ([], c) := by
  rw [buildNodes.eq_def]

theorem buildNodes_preorder_aux :
    ∀ (n : Nat) (ts : List ParsedTask), sizeOf ts ≤ n → ∀ c,
      collectNodes (buildNodes ts c).1 = numberFrom c (preIntentsList ts) ∧
      (buildNodes ts c).2 = c + (preIntentsList ts).length := by
  intro n
  induction n with
  | zero =>
    intro ts hs c
    cases ts with
    | nil => simp at hs
    | cons t rest => simp at hs
  | succ n ih =>
    intro ts hs c
    cases ts with
    | nil =>
      simp [buildNodes_nil, collectNodes.eq_def, preIntentsList.eq_def, numberFrom]
    | cons t rest =>
      have hsub : sizeOf t.subtasks ≤ n := by
        obtain ⟨i, tg, cs, cx, st⟩ := t; simp at hs ⊢; omega
      have hrest : sizeOf rest ≤ n := by
        obtain ⟨i, tg, cs, cx, st⟩ := t; simp at hs; omega
      obtain ⟨ih1, ih2⟩ := ih t.subtasks hsub (c + 1)
      obtain ⟨ih1r, ih2r⟩ := ih rest hrest (c + 1 + (preIntentsList t.subtasks).length)
      rw [buildNodes_cons, buildNode_parts, preIntentsList_cons]
      simp only [collectNodes_cons, List.cons_append]
      constructor
      · rw [numberFrom]
        rw [numberFrom_append]
        simp only [ih1, ih2, ih1r]
      · simp only [ih2, ih2r, List.length_cons, List.length_append]
        omega

/-- C5: for every Prompt, the labels built by the numbering pass of
`formatPrompt`, read in pre-order over the whole forest, are exactly the
pre-order intents numbered sequentially from 1 across all depths; and the
one-root/one-child/one-grandchild tree renders with labels 1, 2, 3 and the
grandchild's connector line nested two levels under the root's prefix. -/
theorem formatPrompt_preorder_numbering :
    (∀ p : ParsedPrompt,
      collectNodes (buildNodes p.tasks 1).1 = numberFrom 1 (preIntentsList p.tasks)) ∧
    formatPrompt ⟨[⟨"r", [], [], none, [⟨"c", [], [], none,
        [⟨"g", [], [], none, []⟩]⟩]⟩]⟩ =
      "┬ 1. r\n│\n└──┬ 2. c\n   │\n   └── 3. g" := by
  constructor
  · intro p
    exact (buildNodes_preorder_aux (sizeOf p.tasks) p.tasks (Nat.le_refl _) 1).1
  · simp [formatPrompt, buildNode.eq_def, buildNodes.eq_def, taskMetaLines,
      multiBlock, flatten, stripChildren, renderNode.eq_def, renderKids.eq_def,
      numEndOf, dotSpaceIdx, spacesOf]
    decide

theorem buildNodes_single (t : ParsedTask) (h : t.subtasks = []) :
    buildNodes [t] 1 =
      ([{ label := "1. " ++ t.intent, metaLines := taskMetaLines t,
          children := [] }], 2) := by
  rw [buildNodes.eq_def]
  simp [buildNode.eq_def, h, buildNodes.eq_def]
  have h1 : toString 1 ++ ". " = "1. " := by decide
  rw [h1]

theorem formatPrompt_single_eq (t : ParsedTask) (h : t.subtasks = []) :
    formatPrompt { tasks := [t] } =
      String.intercalate "\n"
        (("1. " ++ t.intent) :: (taskMetaLines t).map (fun m => "  " ++ m)) := by
  rw [formatPrompt]
  simp [buildNodes_single t h, singleBlock]

theorem intercalate_singleton (x : String) : String.intercalate "\n" [x] = x := by
  simp [String.intercalate, String.intercalate.go]

/-- C7: a prompt decomposing into exactly one node renders as a flat block —
the `1. intent` label line, then one line per present metadata field
(Targets, Constraints, Context, in that order) each prefixed with two
spaces — and with no metadata the output is exactly `1. <intent>`. -/
theorem formatPrompt_single_fast_path (t : ParsedTask) (h : t.subtasks = []) :
    formatPrompt { tasks := [t] } =
      String.intercalate "\n"
        (("1. " ++ t.intent) :: (taskMetaLines t).map (fun m => "  " ++ m)) ∧
    formatPrompt ⟨[⟨t.intent, [], [], none, []⟩]⟩ =
      "1. " ++ t.intent := by
  refine ⟨formatPrompt_single_eq t h, ?_⟩
  rw [formatPrompt_single_eq ⟨t.intent, [], [], none, []⟩ rfl]
  simp [taskMetaLines, intercalate_singleton]

/-- Witness for C7 at the bare task `Run the tests`. -/
theorem formatPrompt_single_fast_path_witness :
    (leafTask "Run the tests").subtasks = [] ∧
    formatPrompt { tasks := [leafTask "Run the tests"] } = "1. Run the tests" :=
  ⟨rfl, by
    have h := (formatPrompt_single_fast_path (leafTask "Run the tests") rfl).2
    simpa [leafTask] using h⟩

/-- C8: `formatPrompt` is a total function, applying it twice to the same
Prompt yields identical output, and the empty task list renders to the
empty string. -/
theorem formatPrompt_total_deterministic :
    formatPrompt { tasks := [] } = "" ∧
    ∀ p : ParsedPrompt, formatPrompt p = formatPrompt p :=
  ⟨rfl, fun _ => rfl⟩

theorem flatten_eq_flattenSpec : ∀ nodes : List TreeNode, flatten nodes = flattenSpec nodes := by
  intro nodes
  induction nodes with
  | nil => rfl
  | cons n rest ih =>
    simp [flattenSpec] at ih
    simp [flatten, flattenSpec, ih]

/-- C6 (counterexample): for the prompt with top-level tasks `A` and `B`
where `B` has the subtask `C`, the render does NOT place `C` beneath `B`:
the flat child list of the implicit root contains `B` with an empty subtree
(so `B` gets a plain `├── ` connector, no `┬` branch glyph) and `C` as `B`'s
sibling, refuting the claim that every subsequent top-level task carries its
own true subtask children recursively beneath it. -/
theorem formatPrompt_hoist_counterexample :
    ((flatten (buildNodes [⟨"A", [], [], none, []⟩,
        ⟨"B", [], [], none, [⟨"C", [], [], none, []⟩]⟩] 1).1).drop 1).map
      (fun n => (n.label, n.children.length)) = [("2. B", 0), ("3. C", 0)] ∧
    formatPrompt ⟨[⟨"A", [], [], none, []⟩,
        ⟨"B", [], [], none, [⟨"C", [], [], none, []⟩]⟩]⟩ =
      "┬ 1. A\n│\n├── 2. B\n│\n└── 3. C" := by
  constructor
  · simp [buildNode.eq_def, buildNodes.eq_def, taskMetaLines, flatten,
      stripChildren]
    decide
  · simp [formatPrompt, buildNode.eq_def, buildNodes.eq_def, taskMetaLines,
      multiBlock, flatten, stripChildren, renderNode.eq_def, renderKids.eq_def,
      numEndOf, dotSpaceIdx, spacesOf]
    decide

/-- C6 (amended): in the multi-node case `formatPrompt` treats only the
very first task as the unindented root; the flattened child list is exactly
the spec-side hoisting `flattenSpec` — every top-level node is emitted with
its subtask list emptied, immediately followed by its immediate subtasks as
siblings at the same depth, and only those hoisted subtasks carry their own
true subtask children recursively. -/
theorem formatPrompt_multi_structure (p : ParsedPrompt)
    (hne : p.tasks.length ≠ 0) (hmulti : (buildNodes p.tasks 1).2 - 1 ≠ 1) :
    formatPrompt p = multiBlock (buildNodes p.tasks 1).1 ∧
    flatten (buildNodes p.tasks 1).1 = flattenSpec (buildNodes p.tasks 1).1 := by
  refine ⟨?_, flatten_eq_flattenSpec _⟩
  obtain ⟨ts⟩ := p
  simp only at hne hmulti
  cases ts with
  | nil => simp at hne
  | cons t rest =>
    simp only [formatPrompt, hmulti, if_false]

/-- Witness for C6 (amended) at the `A`, `B(C)` prompt. -/
theorem formatPrompt_multi_structure_witness :
    ((⟨[⟨"A", [], [], none, []⟩, ⟨"B", [], [], none, [⟨"C", [], [], none, []⟩]⟩]⟩ :
        ParsedPrompt).tasks.length ≠ 0) ∧
    ((buildNodes (⟨[⟨"A", [], [], none, []⟩,
        ⟨"B", [], [], none, [⟨"C", [], [], none, []⟩]⟩]⟩ :
        ParsedPrompt).tasks 1).2 - 1 ≠ 1) ∧
    (formatPrompt ⟨[⟨"A", [], [], none, []⟩,
        ⟨"B", [], [], none, [⟨"C", [], [], none, []⟩]⟩]⟩ =
      multiBlock (buildNodes [⟨"A", [], [], none, []⟩,
        ⟨"B", [], [], none, [⟨"C", [], [], none, []⟩]⟩] 1).1) :=
  ⟨by decide,
   by simp [buildNodes_cons, buildNode_parts, buildNodes_nil],
   (formatPrompt_multi_structure _ (by decide)
      (by simp [buildNodes_cons, buildNode_parts, buildNodes_nil])).1⟩

/-! ## Theorems: validated oracle caller -/

section Retry

variable {J T : Type} (pj : String → Except String J)
  (sp : J → Except (List Issue) T) (oracle : Nat → Option ResponseData)

theorem promptLoop_exhausted (a : Nat) (p e : String) :
    promptLoop pj sp oracle 0 a p e =
      (.err ("Failed after " ++ toString MAX_RETRIES ++ " attempts. Last error: " ++ e), a) := by
  rw [promptLoop]

theorem promptLoop_transport (r a : Nat) (p e : String) (h : oracle a = none) :
    promptLoop pj sp oracle (r + 1) a p e =
      (.err ("No response from LLM (attempt " ++ toString (a + 1) ++ ")"), a + 1) := by
  rw [promptLoop, h]

theorem promptLoop_llm_error (r a : Nat) (p e : String) (rd : ResponseData)
    (m : String) (h : oracle a = some rd) (hm : extractLlmError rd.info = some m) :
    promptLoop pj sp oracle (r + 1) a p e = (.err m, a + 1) := by
  rw [promptLoop, h]
  simp [hm]

theorem promptLoop_ok (r a : Nat) (p e : String) (rd : ResponseData) (v : T)
    (h : oracle a = some rd) (h1 : extractLlmError rd.info = none)
    (h2 : extractText rd.parts ≠ "")
    (h3 : validateJson pj sp (stripCodeFencesS (extractText rd.parts)) = .ok v) :
    promptLoop pj sp oracle (r + 1) a p e = (.ok v, a + 1) := by
  rw [promptLoop, h]
  simp [h1, h2, h3]

theorem promptLoop_retry (r a : Nat) (p e : String) (rd : ResponseData)
    (d : String) (h : oracle a = some rd)
    (hd : retryDetail pj sp rd = some d) :
    ∃ p', promptLoop pj sp oracle (r + 1) a p e =
      promptLoop pj sp oracle r (a + 1) p' d := by
  rw [promptLoop, h]
  rw [retryDetail] at hd
  cases hinfo : extractLlmError rd.info with
  | some m => rw [hinfo] at hd; simp at hd
  | none =>
    rw [hinfo] at hd
    simp only at hd
    by_cases ht : extractText rd.parts = ""
    · rw [if_pos ht] at hd
      have hde := Option.some.inj hd
      subst hde
      exact ⟨buildRetryPrompt "Empty response. Return valid JSON.", by simp [hinfo, ht]⟩
    · rw [if_neg ht] at hd
      cases hv : validateJson pj sp (stripCodeFencesS (extractText rd.parts)) with
      | ok w => rw [hv] at hd; simp at hd
      | fail f =>
        rw [hv] at hd
        simp only at hd
        have hde := Option.some.inj hd
        subst hde
        exact ⟨buildRetryPrompt (formatValidationError f), by simp [hinfo, ht, hv]⟩

theorem retryable_elim (k : Nat)
    (h : isRetryableContent pj sp (oracle k) = true) :
    ∃ rd d, oracle k = some rd ∧ retryDetail pj sp rd = some d := by
  cases ho : oracle k with
  | none => simp [isRetryableContent, ho] at h
  | some rd =>
    simp [isRetryableContent, ho, Option.isSome_iff_exists] at h
    obtain ⟨d, hd⟩ := h
    exact ⟨rd, d, rfl, hd⟩

/-- C1: for an oracle giving N retryable content failures (empty text,
invalid JSON, or schema-nonconformant JSON) followed by a valid
schema-conformant response, with N < MAX_RETRIES, `promptWithRetry` issues
exactly N+1 oracle calls and returns the validated value (N = 0 gives one
call). -/
theorem promptWithRetry_retries_then_succeeds (ip : String) (N : Nat) (v : T)
    (hN : N < MAX_RETRIES)
    (hfail : ∀ k, k < N → isRetryableContent pj sp (oracle k) = true)
    (hok : succeedsWith pj sp (oracle N) v) :
    promptWithRetry pj sp oracle ip = (.ok v, N + 1) := by
  obtain ⟨rd, hrd, h1, h2, h3⟩ := hok
  rw [promptWithRetry]
  rw [MAX_RETRIES] at hN
  show promptLoop pj sp oracle (2 + 1) 0 ip "" = (.ok v, N + 1)
  interval_cases N
  · exact promptLoop_ok pj sp oracle 2 0 ip "" rd v hrd h1 h2 h3
  · obtain ⟨rda, da, hoa, hda⟩ := retryable_elim pj sp oracle 0 (hfail 0 (by omega))
    obtain ⟨p1, hstep⟩ := promptLoop_retry pj sp oracle 2 0 ip "" rda da hoa hda
    rw [hstep]
    show promptLoop pj sp oracle (1 + 1) 1 p1 da = (.ok v, 1 + 1)
    exact promptLoop_ok pj sp oracle 1 1 p1 da rd v hrd h1 h2 h3
  · obtain ⟨rda, da, hoa, hda⟩ := retryable_elim pj sp oracle 0 (hfail 0 (by omega))
    obtain ⟨p1, hstep1⟩ := promptLoop_retry pj sp oracle 2 0 ip "" rda da hoa hda
    rw [hstep1]
    obtain ⟨rdb, db, hob, hdb⟩ := retryable_elim pj sp oracle 1 (hfail 1 (by omega))
    obtain ⟨p2, hstep2⟩ := promptLoop_retry pj sp oracle 1 1 p1 da rdb db hob hdb
    rw [hstep2]
    show promptLoop pj sp oracle (0 + 1) 2 p2 db = (.ok v, 2 + 1)
    exact promptLoop_ok pj sp oracle 0 2 p2 db rd v hrd h1 h2 h3

end Retry

section Retry2

variable {J T : Type} (pj : String → Except String J)
  (sp : J → Except (List Issue) T) (oracle : Nat → Option ResponseData)

/-- C2: when the oracle transport returns no payload, or the response
carries an oracle-side error in its metadata, at attempt N (after N
retryable content failures), `promptWithRetry` fails immediately with
exactly N+1 oracle calls, regardless of the remaining budget. -/
theorem promptWithRetry_fatal_stops (ip : String) (N : Nat)
    (hN : N < MAX_RETRIES)
    (hfail : ∀ k, k < N → isRetryableContent pj sp (oracle k) = true)
    (hfatal : oracle N = none ∨
      ∃ rd m, oracle N = some rd ∧ extractLlmError rd.info = some m) :
    ∃ msg, promptWithRetry pj sp oracle ip = (.err msg, N + 1) := by
  rw [promptWithRetry]
  rw [MAX_RETRIES] at hN
  show ∃ msg, promptLoop pj sp oracle (2 + 1) 0 ip "" = (.err msg, N + 1)
  interval_cases N
  · rcases hfatal with h | ⟨rd, m, hrd, hm⟩
    · exact ⟨_, promptLoop_transport pj sp oracle 2 0 ip "" h⟩
    · exact ⟨m, promptLoop_llm_error pj sp oracle 2 0 ip "" rd m hrd hm⟩
  · obtain ⟨rda, da, hoa, hda⟩ := retryable_elim pj sp oracle 0 (hfail 0 (by omega))
    obtain ⟨p1, hstep⟩ := promptLoop_retry pj sp oracle 2 0 ip "" rda da hoa hda
    rw [hstep]
    show ∃ msg, promptLoop pj sp oracle (1 + 1) 1 p1 da = (.err msg, 1 + 1)
    rcases hfatal with h | ⟨rd, m, hrd, hm⟩
    · exact ⟨_, promptLoop_transport pj sp oracle 1 1 p1 da h⟩
    · exact ⟨m, promptLoop_llm_error pj sp oracle 1 1 p1 da rd m hrd hm⟩
  · obtain ⟨rda, da, hoa, hda⟩ := retryable_elim pj sp oracle 0 (hfail 0 (by omega))
    obtain ⟨p1, hstep1⟩ := promptLoop_retry pj sp oracle 2 0 ip "" rda da hoa hda
    rw [hstep1]
    obtain ⟨rdb, db, hob, hdb⟩ := retryable_elim pj sp oracle 1 (hfail 1 (by omega))
    obtain ⟨p2, hstep2⟩ := promptLoop_retry pj sp oracle 1 1 p1 da rdb db hob hdb
    rw [hstep2]
    show ∃ msg, promptLoop pj sp oracle (0 + 1) 2 p2 db = (.err msg, 2 + 1)
    rcases hfatal with h | ⟨rd, m, hrd, hm⟩
    · exact ⟨_, promptLoop_transport pj sp oracle 0 2 p2 db h⟩
    · exact ⟨m, promptLoop_llm_error pj sp oracle 0 2 p2 db rd m hrd hm⟩

theorem isPrefixOf_self_append (s b : List Char) : s.isPrefixOf (s ++ b) = true := by
  induction s with
  | nil => simp [List.isPrefixOf]
  | cons c cs ih => simp [List.isPrefixOf, ih]

theorem containsSub_nil (hay : List Char) : containsSub hay [] = true := by
  cases hay <;> simp [containsSub, List.isPrefixOf]

theorem containsSub_append (a s b : List Char) :
    containsSub (a ++ (s ++ b)) s = true := by
  induction a with
  | nil =>
    cases s with
    | nil => simpa using containsSub_nil b
    | cons c s' => simp [containsSub, isPrefixOf_self_append]
  | cons c a' ih => simp [containsSub, ih]

theorem strContains_mid (a s b : String) :
    containsSub (a ++ s ++ b).toList s.toList = true := by
  have h : (a ++ s ++ b).toList = a.toList ++ (s.toList ++ b.toList) := by
    show (a.toList ++ s.toList) ++ b.toList = a.toList ++ (s.toList ++ b.toList)
    exact List.append_assoc a.toList s.toList b.toList
  rw [h]
  exact containsSub_append a.toList s.toList b.toList

/-- C3: when all MAX_RETRIES responses are retryable content failures,
`promptWithRetry` returns a failure after exactly 3 calls whose message is
`Failed after 3 attempts. Last error: ` followed by the detail of the last
recorded failure — so the message contains both the attempt bound and the
last failure detail. -/
theorem promptWithRetry_exhausts_with_detail (ip : String)
    (hfail : ∀ k, k < MAX_RETRIES → isRetryableContent pj sp (oracle k) = true) :
    ∃ rd d, oracle 2 = some rd ∧ retryDetail pj sp rd = some d ∧
      promptWithRetry pj sp oracle ip =
        (.err ("Failed after " ++ toString MAX_RETRIES ++
          " attempts. Last error: " ++ d), 3) ∧
      containsSub ("Failed after " ++ toString MAX_RETRIES ++
        " attempts. Last error: " ++ d).toList (toString MAX_RETRIES).toList = true ∧
      containsSub ("Failed after " ++ toString MAX_RETRIES ++
        " attempts. Last error: " ++ d).toList d.toList = true := by
  obtain ⟨rda, da, hoa, hda⟩ := retryable_elim pj sp oracle 0 (hfail 0 (by decide))
  obtain ⟨rdb, db, hob, hdb⟩ := retryable_elim pj sp oracle 1 (hfail 1 (by decide))
  obtain ⟨rdc, dc, hoc, hdc⟩ := retryable_elim pj sp oracle 2 (hfail 2 (by decide))
  refine ⟨rdc, dc, hoc, hdc, ?_, ?_, ?_⟩
  · rw [promptWithRetry]
    show promptLoop pj sp oracle (2 + 1) 0 ip "" = _
    obtain ⟨p1, hstep1⟩ := promptLoop_retry pj sp oracle 2 0 ip "" rda da hoa hda
    rw [hstep1]
    obtain ⟨p2, hstep2⟩ := promptLoop_retry pj sp oracle 1 1 p1 da rdb db hob hdb
    rw [hstep2]
    obtain ⟨p3, hstep3⟩ := promptLoop_retry pj sp oracle 0 2 p2 db rdc dc hoc hdc
    rw [hstep3]
    exact promptLoop_exhausted pj sp oracle 3 p3 dc
  · have h := strContains_mid "Failed after " (toString MAX_RETRIES)
      (" attempts. Last error: " ++ dc)
    simpa [String.append_assoc] using h
  · have h := strContains_mid
      ("Failed after " ++ toString MAX_RETRIES ++ " attempts. Last error: ") dc ""
    simpa [String.append_assoc] using h

end Retry2

/-- Witness for C1: one parse failure, then a valid response — two calls,
value returned. -/
theorem promptWithRetry_retries_then_succeeds_witness :
    promptWithRetry wParse wSchema wOracleC1 "go" = (.ok 42, 2) :=
  promptWithRetry_retries_then_succeeds wParse wSchema wOracleC1 "go" 1 42
    (by decide) (by decide) ⟨wRespOk, rfl, rfl, by decide, rfl⟩

/-- Witness for C2: one parse failure, then an oracle-side `RateLimit`
error — the run stops at two calls with a failure. -/
theorem promptWithRetry_fatal_stops_witness :
    ∃ msg, promptWithRetry wParse wSchema wOracleC2 "go" = (.err msg, 2) :=
  promptWithRetry_fatal_stops wParse wSchema wOracleC2 "go" 1
    (by decide) (by decide)
    (Or.inr ⟨wRespErr, "RateLimit", rfl, rfl⟩)

/-- Witness for C3: every attempt fails to parse — three calls, final
message naming the bound and the last detail. -/
theorem promptWithRetry_exhausts_with_detail_witness :
    ∃ rd d, wOracleC3 2 = some rd ∧ retryDetail wParse wSchema rd = some d ∧
      promptWithRetry wParse wSchema wOracleC3 "go" =
        (.err ("Failed after " ++ toString MAX_RETRIES ++
          " attempts. Last error: " ++ d), 3) ∧
      containsSub ("Failed after " ++ toString MAX_RETRIES ++
        " attempts. Last error: " ++ d).toList (toString MAX_RETRIES).toList = true ∧
      containsSub ("Failed after " ++ toString MAX_RETRIES ++
        " attempts. Last error: " ++ d).toList d.toList = true :=
  promptWithRetry_exhausts_with_detail wParse wSchema wOracleC3 "go" (by decide)

/-! ## Theorems: rules and validation -/

/-- C9: (spec-modelled, the repository has no programmatic rule renderer)
the renderer conforming to the `DEONTIC_STRENGTHS` mapping renders every
forbidden-strength rule with the negation `do not` immediately before the
action verb, never as a bare positive imperative; in particular the rule
`{strength: forbidden, action: use, target: X}` renders with a negation
token adjacent to `use`. -/
theorem renderRule_forbidden_negated :
    (∀ (a t : String) (c : Option String) (r : String),
      renderRule ⟨.forbidden, a, t, c, r⟩ = "do not " ++ a ++ " " ++ t) ∧
    containsSub (renderRule ⟨.forbidden, "use", "X", none, "reasons"⟩).toList
      "do not use".toList = true := by
  constructor
  · intro a t c r; rfl
  · decide

/-- C10: for every input string and abstract parser/schema, `validateJson`
is total (the `safe` wrapper turns a `JSON.parse` throw into a value) and
returns exactly one of the three tagged variants, with data non-null iff
error null: the parse variant exactly when the string does not parse, the
schema variant with the validator's issue list exactly when it parses but
does not conform, and the ok variant with the validated value otherwise. -/
theorem validateJson_tagged_union {J T : Type}
    (pj : String → Except String J) (sp : J → Except (List Issue) T)
    (s : String) :
    ((vData (validateJson pj sp s)).isSome ↔
      vError (validateJson pj sp s) = none) ∧
    (validateJson pj sp s = .fail .parse ↔ ∃ e, pj s = .error e) ∧
    (∀ issues, validateJson pj sp s = .fail (.schema issues) ↔
      ∃ v, pj s = .ok v ∧ sp v = .error issues) ∧
    (∀ d, validateJson pj sp s = .ok d ↔
      ∃ v, pj s = .ok v ∧ sp v = .ok d) := by
  cases hp : pj s with
  | error e => simp [validateJson, hp, vData, vError]
  | ok v =>
    cases hs : sp v with
    | error issues => simp [validateJson, hp, hs, vData, vError]
    | ok d => simp [validateJson, hp, hs, vData, vError]
